import Mathlib

/-
Shallow embedding of `tensor2tensor/models/research/transformer_vae.py`.

The file models the discrete-latent autoencoder Transformer's forward pass
(`ae_transformer_internal`), the latent sampler (`ae_latent_sample`), the
mixed-radix block composition of `ae_latent_softmax`, the masking policy,
the loss-dictionary bookkeeping, and the construction-time configuration
check of `TransformerAE.__init__`.

Modelling conventions:
* Machine floats become rationals (`ℚ`); tensors along the claims' data flow
  become lists of rationals indexed by position; discrete latent codes become
  lists of naturals.
* External collaborators (attention, convolutions, the transformer
  encoder/decoder stacks, the beam-search primitive, the bottleneck function
  built in `discretization.py`) are not part of this repository's file and
  are treated as opaque: their outputs at the interface points of
  `ae_transformer_internal` enter the model as fields of `Tensors`, and the
  latent predictor used by the sampler enters as a function parameter.
* The stochastic draws made by `tf.random_uniform` enter as explicit inputs
  (`Rand`), so every modelled computation is a function of its inputs.
* The module-level global `_DO_SUMMARIES` (line 44) becomes an explicit
  `ModuleState` threaded through `ae_transformer_internal`.
* Python `NameError` crashes become `Except.error`.
-/

namespace TransformerVAE

/-- Estimator mode, mirroring `tf_estimator.ModeKeys` as used in the file. -/
inductive Mode where
  | TRAIN
  | EVAL
  | PREDICT
deriving DecidableEq

/-- The hyperparameter fields of `transformer_ae_small` (lines 764-834) that the
modelled code paths read.  `mode` mirrors `hparams.mode`. -/
structure HParams where
  do_ae : Bool
  do_mask : Bool
  do_refine : Bool
  use_predict_mask : Bool
  bottleneck_kind : String
  num_decode_blocks : Nat
  sampling_temp : ℚ
  mask_startup_steps : Nat
  unmasked_percentage : ℚ
  entropy_scale : ℚ
  prior_scale : ℚ
  sum_over_latents : Bool
  reshape_method : String
  mode : Mode
deriving DecidableEq

/-- The loss dictionary built at line 355: an insertion-ordered string-keyed
map, modelled as an association list. -/
abbrev LossDict := List (String × ℚ)

/-- Python `d[k] = v`: replace the value of the (unique) existing binding of
`k` in place, append the key otherwise (insertion order preserved, as for a
Python dict). -/
def dictSet : LossDict → String → ℚ → LossDict
  | [], k, v => [(k, v)]
  | p :: l, k, v => if p.1 = k then (k, v) :: l else p :: dictSet l k v

/-- Python `d[k]` as a lookup: the binding of `k`, if any. -/
def dictGet : LossDict → String → Option ℚ
  | [], _ => none
  | p :: l, k => if p.1 = k then some p.2 else dictGet l k

/-- Value of key `k`, defaulting to `0` (all modelled reads are of keys that
are present, so the default is never exercised on the code's paths). -/
def dictGetD (l : LossDict) (k : String) : ℚ :=
  (dictGet l k).getD 0

/-- The keys of the dictionary, in insertion order. -/
def dictKeys (l : LossDict) : List String :=
  l.map Prod.fst

/-- Conversion of a boolean tensor to a float one, `tf.to_float`. -/
def boolToQ (b : Bool) : ℚ :=
  if b then 1 else 0

/-- Mean reduction, `tf.reduce_mean`, over a flat list of scalars. -/
def reduceMean (l : List ℚ) : ℚ :=
  l.sum / l.length

/-- Elementwise squared difference, `tf.squared_difference`. -/
def squaredDifference (a b : List ℚ) : List ℚ :=
  List.zipWith (fun x y => (x - y) ^ 2) a b

/-- One refinement round of the latent sampler, `next_bit` (lines 312-320):
keep positions `0..i` of the current code and overwrite the positions
strictly after `i` with the model's current prediction.  `predict` stands for
the composite `embed` → `decode_transformer` → `ae_latent_softmax` re-scoring
of the whole sequence, an external computation. -/
def next_bit (predict : List Nat → List Nat) (latents_discrete : List Nat) (i : Nat) :
    List Nat :=
  latents_discrete.take (i + 1) ++ (predict latents_discrete).drop (i + 1)

/-- The `for i in range(iters)` loop of `ae_latent_sample` (lines 322-323):
`iterate_sample predict init m` is the latent code after the rounds
`i = 0, …, m-1` have run. -/
def iterate_sample (predict : List Nat → List Nat) (init : List Nat) : Nat → List Nat
  | 0 => init
  | n + 1 => next_bit predict (iterate_sample predict init n) n

/-- Latent sampler `ae_latent_sample` (lines 303-324).  `beamResult` is the value of
`ae_latent_sample_beam` (an external beam search, lines 272-300);
`initialPredict latents_dense` is the one full forward prediction of
lines 309-310; `predict` re-predicts a discrete code from a discrete code as
in `next_bit`. -/
def ae_latent_sample (hp : HParams) (latents_dense : List ℚ) (beamResult : List Nat)
    (initialPredict : List ℚ → List Nat) (predict : List Nat → List Nat)
    (iters : Nat) : List Nat :=
  if hp.num_decode_blocks < 2 ∧ hp.sampling_temp = 0 then beamResult
  else iterate_sample predict (initialPredict latents_dense) iters

/-- The mixed-radix composition of the multi-block branch of
`ae_latent_softmax` (line 268): `sample = Σ sampleᵢ · block_vocab_sizeⁱ`. -/
def blockCompose (block_vocab_size : Nat) (samples : List Nat) : Nat :=
  (samples.enum.map (fun p => p.2 * block_vocab_size ^ p.1)).sum

/-- The mixed-radix digit extraction of `ae_latent_softmax` (lines 261-262):
`d = floormod(floordiv(value, block_vocab_sizeⁱ), block_vocab_size)`. -/
def blockDigit (block_vocab_size value i : Nat) : Nat :=
  value / block_vocab_size ^ i % block_vocab_size

/-- The schedule-derived masking weight (lines 493-498).  `linDecay` and
`expDecay` are the values of `common_layers.inverse_lin_decay
(mask_startup_steps)` and `common_layers.inverse_exp_decay
(mask_startup_steps // 4)` at the current global step (external helpers);
`schedDraw` is the scalar `tf.random_uniform([])` draw. -/
def scheduleMasking (hp : HParams) (linDecay expDecay schedDraw : ℚ) : ℚ :=
  let masking := linDecay * expDecay
  let masking :=
    if hp.do_refine then masking else masking - schedDraw * hp.unmasked_percentage
  min (max masking 0) 1

/-- The overrides of lines 499-502: `use_predict_mask` and PREDICT mode both
force the masking weight to the externally supplied `predict_mask`. -/
def maskingValue (hp : HParams) (predict_mask sched : ℚ) : ℚ :=
  let masking := if hp.use_predict_mask then predict_mask else sched
  if hp.mode = Mode.PREDICT then predict_mask else masking

/-- The per-position mask of lines 503-505: `to_float(masking < u)` for one
uniform draw `u` per position. -/
def maskBits (masking : ℚ) (posDraws : List ℚ) : List ℚ :=
  posDraws.map (fun u => if masking < u then 1 else 0)

/-- The blend of line 508: `targets = mask·targets + (1-mask)·d`,
elementwise. -/
def blendTargets (mask : List ℚ) (targets d : List ℚ) : List ℚ :=
  List.zipWith (fun m td => m * td.1 + (1 - m) * td.2) mask (targets.zip d)

/-- The masking step, lines 491-513: with `do_mask`, blend the (padded)
targets with the decompressed latents `d` under the mask; without `do_mask`,
the decompressed latents replace the targets outright (line 513). -/
def maskingStep (hp : HParams) (predict_mask linDecay expDecay schedDraw : ℚ)
    (posDraws targets d : List ℚ) : List ℚ :=
  if hp.do_mask then
    blendTargets
      (maskBits (maskingValue hp predict_mask (scheduleMasking hp linDecay expDecay schedDraw))
        posDraws)
      targets d
  else d

/-- The module-level mutable global `_DO_SUMMARIES` (line 44), threaded
explicitly. -/
structure ModuleState where
  doSummaries : Bool
deriving DecidableEq

/-- A Python runtime error observable from `ae_transformer_internal`; the
modelled one is the `NameError` raised when a name bound only inside the
`do_ae` branch is read (line 536). -/
inductive PyErr where
  | nameError (name : String)
deriving DecidableEq

/-- Values produced at the interface points of `ae_transformer_internal` by
the external collaborators (encoder, compressor, bottleneck, decompressor,
decoder, beam search); each field is documented with the source line whose
result it stands for. -/
structure Tensors where
  /-- the unpadded targets captured at lines 359-360 (`original_targets`);
  its length is `original_targets_shape[1]` used at line 536 -/
  original_targets : List ℚ
  /-- the padded, position-embedded targets of lines 385-401 that enter the
  masking step -/
  targets : List ℚ
  /-- compressed targets, `targets_c = compress(...)` (line 403) -/
  targets_c : List ℚ
  /-- decoded compressed input, `inputs_c = decode_transformer(inputs, ed, targets_c, hparams, "dec_c")`
  (line 440) -/
  inputs_c : List ℚ
  /-- the decompressed dense latents `d` after the loop of lines 484-489 -/
  d : List ℚ
  /-- the re-encoded output of `refine_res()` (lines 519-523) -/
  refine_res : List ℚ
  /-- the base decoder of line 515 applied to the blended targets -/
  decoder : List ℚ → List ℚ
  /-- the `extra_loss` returned by `hparams.bottleneck` (line 406) -/
  extra_loss : ℚ
  /-- the `neg_q_entropy` returned by `hparams.bottleneck` (line 406) -/
  neg_q_entropy : ℚ
  /-- the per-batch, per-latent-position cross-entropy `latent_pred_loss`
  of line 426 -/
  latent_pred_loss : List (List ℚ)
  /-- value of `common_layers.inverse_lin_decay(hparams.mask_startup_steps)`
  at the current global step (line 493) -/
  linDecay : ℚ
  /-- value of `common_layers.inverse_exp_decay(hparams.mask_startup_steps // 4)`
  at the current global step (line 494) -/
  expDecay : ℚ
  /-- the global step, `tf.train.get_global_step()` (line 530) -/
  global_step : Nat
  /-- the all-zero `latents_dense` fed to `ae_latent_sample` (line 470) -/
  latents_dense : List ℚ
  /-- the `ae_latent_sample_beam` result (external beam search) -/
  beamResult : List Nat
  /-- the initial full forward prediction of lines 309-310 -/
  initialPredict : List ℚ → List Nat
  /-- the per-round re-prediction used by `next_bit` -/
  predict : List Nat → List Nat

/-- The `tf.random_uniform` draws consumed by one forward pass. -/
structure Rand where
  /-- the draws `cond = tf.less(tf.random_uniform([batch_size]), pc)` (line 415),
  one boolean per batch entry -/
  cond_draws : List Bool
  /-- the scalar draw of line 497 -/
  mask_sched_draw : ℚ
  /-- the per-position draws of lines 503-504 -/
  mask_pos_draws : List ℚ

/-- The five-tuple returned at line 540. -/
structure ForwardResult where
  res : List ℚ
  losses : LossDict
  cache : Option (List Nat)
  data_dim : Nat
  latent_dim : Nat
deriving DecidableEq

/-- The loss dictionary as initialised at lines 355-356. -/
def lossesInit : LossDict :=
  [("extra", 0), ("latent_pred", 0), ("neg_q_entropy", 0)]

/-- The discrete latent-prediction loss of lines 433-437:
`reduce_sum` over the latent axes when `sum_over_latents`, then
`reduce_mean(latent_pred_loss * to_float(cond)) * prior_scale`. -/
def latentPredLossDiscrete (hp : HParams) (latent_pred_loss : List (List ℚ))
    (cond : List Bool) : ℚ :=
  if hp.sum_over_latents then
    reduceMean (List.zipWith (fun (row : List ℚ) c => row.sum * boolToQ c)
      latent_pred_loss cond) * hp.prior_scale
  else
    reduceMean ((List.zipWith (fun (row : List ℚ) c => row.map (· * boolToQ c))
      latent_pred_loss cond).flatten) * hp.prior_scale

/-- The loss updates of lines 404-442: outside PREDICT mode,
`losses["extra"]` is set at line 418 and then either the discrete branch
(lines 420-438) sets `latent_pred` and `neg_q_entropy`, or the dense/vae
branch (lines 439-442) sets `latent_pred` to the squared-difference form; in
PREDICT mode (lines 456-474) no loss is updated. -/
def computeLosses (hp : HParams) (t : Tensors) (r : Rand) : LossDict :=
  if hp.mode ≠ Mode.PREDICT then
    let l := dictSet lossesInit "extra"
      (t.extra_loss * reduceMean (r.cond_draws.map boolToQ))
    if hp.bottleneck_kind ≠ "dense" ∧ hp.bottleneck_kind ≠ "vae" then
      dictSet
        (dictSet l "latent_pred" (latentPredLossDiscrete hp t.latent_pred_loss r.cond_draws))
        "neg_q_entropy" (t.neg_q_entropy * hp.entropy_scale)
    else
      dictSet l "latent_pred" (reduceMean (squaredDifference t.inputs_c t.targets_c) * 20)
  else lossesInit

/-- The gate `to_float(latent_time)` of lines 528-530: `1` once the global step has
passed `mask_startup_steps`, `0` before. -/
def latentTimeGate (hp : HParams) (global_step : Nat) : ℚ :=
  if hp.mask_startup_steps < global_step then 1 else 0

/-- Line 531: `losses["latent_pred"] *= tf.to_float(latent_time)`. -/
def applyLatentTime (hp : HParams) (global_step : Nat) (l : LossDict) : LossDict :=
  dictSet l "latent_pred" (dictGetD l "latent_pred" * latentTimeGate hp global_step)

/-- The loss dictionary as returned by a completing forward pass: the updates
of lines 404-442 followed by the `latent_time` gating of lines 528-531. -/
def finalLosses (hp : HParams) (t : Tensors) (r : Rand) : LossDict :=
  applyLatentTime hp t.global_step (computeLosses hp t r)

/-- The cache handling of lines 456-474: in PREDICT mode with a discrete
bottleneck, a missing cache is populated by `ae_latent_sample` with
`iters = 16` (line 472); otherwise the caller's cache is passed through. -/
def updateCache (hp : HParams) (cache : Option (List Nat)) (t : Tensors) :
    Option (List Nat) :=
  if hp.mode = Mode.PREDICT ∧ hp.bottleneck_kind ≠ "dense" ∧ hp.bottleneck_kind ≠ "vae" then
    some (cache.getD (ae_latent_sample hp t.latents_dense t.beamResult
      t.initialPredict t.predict 16))
  else cache

/-- The forward pass `ae_transformer_internal` (lines 327-540).  Returns the new module state
(the global `_DO_SUMMARIES` is set to `False` at lines 335-337 when
`do_refine` is on) together with either the five-tuple of line 540 or the
`NameError` on `original_targets_shape` that line 536 raises whenever
`do_ae` is off, since that name is bound only at line 360 inside the
`do_ae` branch. -/
def ae_transformer_internal (hp : HParams) (t : Tensors) (r : Rand)
    (cache : Option (List Nat)) (predict_mask : ℚ) (st : ModuleState) :
    ModuleState × Except PyErr ForwardResult :=
  let st1 := if hp.do_refine then { st with doSummaries := false } else st
  if hp.do_ae then
    let newCache := updateCache hp cache t
    let blended := maskingStep hp predict_mask t.linDecay t.expDecay
      r.mask_sched_draw r.mask_pos_draws t.targets t.d
    let res := t.decoder blended
    let res :=
      if hp.do_mask ∧ hp.do_refine then
        let bits := maskBits
          (maskingValue hp predict_mask
            (scheduleMasking hp t.linDecay t.expDecay r.mask_sched_draw))
          r.mask_pos_draws
        if bits.sum < 1 / 10 then t.refine_res else res
      else res
    let resF := res.take t.original_targets.length
    (st1, Except.ok
      { res := resF
        losses := finalLosses hp t r
        cache := newCache
        data_dim := resF.length
        latent_dim := t.targets_c.length })
  else
    (st1, Except.error (PyErr.nameError "original_targets_shape"))

/-- The reshape-method dispatch of `TransformerAE.__init__` (lines 578-603):
the check runs only for the two DVQ bottleneck kinds, where a method other
than `"project"` or `"slice"` raises `ValueError("Unknown reshape method")`;
for every other bottleneck kind construction succeeds without looking at
`reshape_method`. -/
def transformerAEInit (hp : HParams) : Except String Unit :=
  if hp.bottleneck_kind = "dvq" ∨ hp.bottleneck_kind = "gumbel-softmax-dvq" then
    if hp.reshape_method = "project" then Except.ok ()
    else if hp.reshape_method = "slice" then Except.ok ()
    else Except.error "Unknown reshape method"
  else Except.ok ()

/-- A baseline configuration for concrete instantiations, following the
values set by `transformer_ae_small` (lines 764-834) on the modelled fields
(`sampling_temp` is the framework default `1.0` there; witnesses override
fields as needed). -/
def hpBase : HParams where
  do_ae := true
  do_mask := true
  do_refine := false
  use_predict_mask := false
  bottleneck_kind := "semhash"
  num_decode_blocks := 1
  sampling_temp := 0
  mask_startup_steps := 50000
  unmasked_percentage := 1 / 10
  entropy_scale := 0
  prior_scale := 1
  sum_over_latents := false
  reshape_method := "slice"
  mode := Mode.TRAIN

/-- Baseline interface values for concrete instantiations. -/
def tBase : Tensors where
  original_targets := [1, 2]
  targets := [1, 2]
  targets_c := [1]
  inputs_c := [3]
  d := [5, 6]
  refine_res := [9, 9]
  decoder := fun l => l
  extra_loss := 0
  neg_q_entropy := 2
  latent_pred_loss := [[1]]
  linDecay := 1 / 2
  expDecay := 1 / 2
  global_step := 60000
  latents_dense := [0]
  beamResult := [0]
  initialPredict := fun _ => [0]
  predict := fun l => l

/-- Baseline random draws for concrete instantiations. -/
def rBase : Rand where
  cond_draws := [true]
  mask_sched_draw := 1 / 2
  mask_pos_draws := [1 / 2, 1 / 2]

/-- Concrete configuration for C1: PREDICT mode, masking on. -/
def hpC1 : HParams := { hpBase with mode := Mode.PREDICT }

/-- Concrete configuration for C2: single decode block, zero temperature. -/
def hpC2 : HParams := hpBase

/-- Concrete configuration for C4: dense bottleneck, TRAIN mode. -/
def hpC4 : HParams := { hpBase with bottleneck_kind := "dense" }

/-- Concrete configuration for C5: refinement on, so the global is mutated. -/
def hpC5 : HParams := { hpBase with do_refine := true }

/-- Concrete configuration for C8's amended theorem: PREDICT mode, vae kind. -/
def hpC8 : HParams := { hpBase with mode := Mode.PREDICT, bottleneck_kind := "vae" }

/-- Concrete configuration for C8's counterexample: autoencoding disabled. -/
def hpC8off : HParams := { hpBase with do_ae := false, mode := Mode.EVAL }

/-- Concrete configuration for C9's counterexample: a non-DVQ bottleneck with
an invalid reshape method. -/
def hpC9semhash : HParams := { hpBase with reshape_method := "bogus" }

/-- Concrete configuration for C9's amended theorem: DVQ bottleneck with an
invalid reshape method. -/
def hpC9dvq : HParams :=
  { hpBase with bottleneck_kind := "dvq", reshape_method := "bogus" }

/-- Concrete configuration for C10: autoencoding disabled. -/
def hpC10 : HParams := { hpBase with do_ae := false }

theorem dictGet_dictSet_self (l : LossDict) (k : String) (v : ℚ) :
    dictGet (dictSet l k v) k = some v := by
  induction l with
  | nil => simp [dictSet, dictGet]
  | cons p l ih =>
    by_cases h : p.1 = k
    · simp [dictSet, dictGet, h]
    · simp [dictSet, dictGet, h, ih]

theorem dictGet_dictSet_ne (l : LossDict) (k kq : String) (v : ℚ) (h : k ≠ kq) :
    dictGet (dictSet l kq v) k = dictGet l k := by
  induction l with
  | nil => simp [dictSet, dictGet, Ne.symm h]
  | cons p l ih =>
    by_cases hq : p.1 = kq
    · have hk : ¬ (kq = k) := fun hc => h hc.symm
      simp [dictSet, dictGet, hq, hk]
    · by_cases hk : p.1 = k
      · simp [dictSet, dictGet, hq, hk, h]
      · simp [dictSet, dictGet, hq, hk, ih]

theorem dictKeys_dictSet_mem (l : LossDict) (k : String) (v : ℚ)
    (h : k ∈ dictKeys l) : dictKeys (dictSet l k v) = dictKeys l := by
  induction l with
  | nil => simp [dictKeys] at h
  | cons p l ih =>
    by_cases hp : p.1 = k
    · simp [dictSet, dictKeys, hp]
    · have hmem : k ∈ dictKeys l := by
        rcases (by simpa [dictKeys] using h : k = p.1 ∨ k ∈ dictKeys l) with hc | hc
        · exact absurd hc.symm hp
        · exact hc
      simp [dictSet, dictKeys, hp]
      simpa [dictKeys] using ih hmem

theorem dictKeys_dictSet_of_eq (l : LossDict) (k : String) (v : ℚ)
    (ks : List String) (hl : dictKeys l = ks) (hk : k ∈ ks) :
    dictKeys (dictSet l k v) = ks := by
  rw [dictKeys_dictSet_mem l k v (hl ▸ hk), hl]

theorem dictKeys_computeLosses (hp : HParams) (t : Tensors) (r : Rand) :
    dictKeys (computeLosses hp t r) = ["extra", "latent_pred", "neg_q_entropy"] := by
  unfold computeLosses
  split_ifs with hm hk
  · exact dictKeys_dictSet_of_eq _ _ _ _
      (dictKeys_dictSet_of_eq _ _ _ _
        (dictKeys_dictSet_of_eq _ _ _ _ rfl (by simp)) (by simp)) (by simp)
  · exact dictKeys_dictSet_of_eq _ _ _ _
      (dictKeys_dictSet_of_eq _ _ _ _ rfl (by simp)) (by simp)
  · rfl

theorem dictKeys_applyLatentTime (hp : HParams) (s : Nat) (l : LossDict)
    (h : "latent_pred" ∈ dictKeys l) :
    dictKeys (applyLatentTime hp s l) = dictKeys l :=
  dictKeys_dictSet_mem l _ _ h

theorem dictKeys_finalLosses (hp : HParams) (t : Tensors) (r : Rand) :
    dictKeys (finalLosses hp t r) = ["extra", "latent_pred", "neg_q_entropy"] := by
  unfold finalLosses
  rw [dictKeys_applyLatentTime _ _ _ (by rw [dictKeys_computeLosses]; simp)]
  exact dictKeys_computeLosses hp t r

theorem computeLosses_neg_q_entropy_dense_vae (hp : HParams) (t : Tensors) (r : Rand)
    (hkind : hp.bottleneck_kind = "dense" ∨ hp.bottleneck_kind = "vae") :
    dictGet (computeLosses hp t r) "neg_q_entropy" = some 0 := by
  unfold computeLosses
  by_cases hm : hp.mode ≠ Mode.PREDICT
  · rw [if_pos hm, if_neg (by rcases hkind with h | h <;> simp [h])]
    rw [dictGet_dictSet_ne _ _ _ _ (by simp), dictGet_dictSet_ne _ _ _ _ (by simp)]
    rfl
  · rw [if_neg hm]
    rfl

theorem finalLosses_neg_q_entropy_dense_vae (hp : HParams) (t : Tensors) (r : Rand)
    (hkind : hp.bottleneck_kind = "dense" ∨ hp.bottleneck_kind = "vae") :
    dictGet (finalLosses hp t r) "neg_q_entropy" = some 0 := by
  unfold finalLosses applyLatentTime
  rw [dictGet_dictSet_ne _ _ _ _ (by simp)]
  exact computeLosses_neg_q_entropy_dense_vae hp t r hkind

theorem finalLosses_predict (hp : HParams) (t : Tensors) (r : Rand)
    (hm : hp.mode = Mode.PREDICT) : finalLosses hp t r = lossesInit := by
  unfold finalLosses applyLatentTime
  rw [show computeLosses hp t r = lossesInit from by unfold computeLosses; simp [hm]]
  simp [dictGetD, dictGet, dictSet, lossesInit]

theorem finalLosses_latent_pred_dense (hp : HParams) (t : Tensors) (r : Rand)
    (hm : hp.mode ≠ Mode.PREDICT) (hkind : hp.bottleneck_kind = "dense") :
    dictGet (finalLosses hp t r) "latent_pred" =
      some (reduceMean (squaredDifference t.inputs_c t.targets_c) * 20 *
        latentTimeGate hp t.global_step) := by
  unfold finalLosses applyLatentTime
  rw [dictGet_dictSet_self]
  have hcl : dictGet (computeLosses hp t r) "latent_pred" =
      some (reduceMean (squaredDifference t.inputs_c t.targets_c) * 20) := by
    unfold computeLosses
    rw [if_pos hm, if_neg (by simp [hkind])]
    exact dictGet_dictSet_self _ _ _
  rw [dictGetD, hcl]
  rfl

/-- C10: the five-tuple return contract of `ae_transformer_internal` is
reachable only when `hparams.do_ae` is true; with `do_ae` false, every call
fails with an undefined-name error on `original_targets_shape` (bound only
inside the `do_ae` branch, line 360, yet read unconditionally at line 536)
before returning. -/
theorem c10_no_return_without_do_ae (hp : HParams) (t : Tensors) (r : Rand)
    (cache : Option (List Nat)) (pm : ℚ) (st : ModuleState)
    (h : hp.do_ae = false) :
    (ae_transformer_internal hp t r cache pm st).2 =
      Except.error (PyErr.nameError "original_targets_shape") := by
  unfold ae_transformer_internal
  simp [h]

/-- C10 witness: a concrete forward pass with `do_ae` off raises the
modelled `NameError`. -/
theorem c10_witness :
    hpC10.do_ae = false ∧
      (ae_transformer_internal hpC10 tBase rBase none 1 ⟨true⟩).2 =
        Except.error (PyErr.nameError "original_targets_shape") :=
  ⟨rfl, c10_no_return_without_do_ae hpC10 tBase rBase none 1 ⟨true⟩ rfl⟩

/-- C5 (amended): the forward pass is a deterministic function of its inputs,
configuration, explicit random draws and module state, and when `do_refine`
is off it leaves the module-level state (`_DO_SUMMARIES`, line 44) untouched;
the original claim fails because a call with `do_refine` on mutates that
module-level global (lines 335-337), see the counterexample. -/
theorem c5_frame_no_refine (hp : HParams) (t : Tensors) (r : Rand)
    (cache : Option (List Nat)) (pm : ℚ) (st : ModuleState)
    (h : hp.do_refine = false) :
    (ae_transformer_internal hp t r cache pm st).1 = st := by
  unfold ae_transformer_internal
  simp only [h]
  cases hae : hp.do_ae <;> simp

/-- C5 witness: a concrete call with `do_refine` off returns the module
state unchanged. -/
theorem c5_witness :
    hpBase.do_refine = false ∧
      (ae_transformer_internal hpBase tBase rBase none 1 ⟨true⟩).1 = ⟨true⟩ :=
  ⟨rfl, c5_frame_no_refine hpBase tBase rBase none 1 ⟨true⟩ rfl⟩

/-- C5 counterexample: with `do_refine` on, a single call flips the
module-level `_DO_SUMMARIES` from `true` to `false` — state outside the
call's own outputs is modified, contradicting the claim that no call
modifies any module-level state. -/
theorem c5_counterexample :
    (ae_transformer_internal hpC5 tBase rBase none 1 ⟨true⟩).1 = ⟨false⟩ ∧
      (⟨false⟩ : ModuleState) ≠ (⟨true⟩ : ModuleState) := by
  constructor
  · unfold ae_transformer_internal hpC5 hpBase
    simp
  · intro hc
    cases hc

/-- C8 (amended): every forward pass that returns a loss dictionary (which
requires `do_ae` on — with `do_ae` off the pass raises a `NameError` instead,
see the counterexample) returns exactly the keys `extra`, `latent_pred`,
`neg_q_entropy` in insertion order; `neg_q_entropy` is zero for the
dense/vae bottlenecks, and in PREDICT mode all three are zero. -/
theorem c8_losses_exactly_three_keys (hp : HParams) (t : Tensors) (r : Rand)
    (cache : Option (List Nat)) (pm : ℚ) (st : ModuleState)
    (hae : hp.do_ae = true) :
    ∃ fr : ForwardResult,
      (ae_transformer_internal hp t r cache pm st).2 = Except.ok fr ∧
      dictKeys fr.losses = ["extra", "latent_pred", "neg_q_entropy"] ∧
      ((hp.bottleneck_kind = "dense" ∨ hp.bottleneck_kind = "vae") →
        dictGet fr.losses "neg_q_entropy" = some 0) ∧
      (hp.mode = Mode.PREDICT → fr.losses = lossesInit) := by
  unfold ae_transformer_internal
  simp only [hae, if_true]
  exact ⟨_, rfl, dictKeys_finalLosses hp t r,
    finalLosses_neg_q_entropy_dense_vae hp t r,
    finalLosses_predict hp t r⟩

/-- C8 witness: a concrete PREDICT-mode pass with a vae bottleneck returns
the three keys, with every loss zero. -/
theorem c8_witness :
    hpC8.do_ae = true ∧
      ∃ fr : ForwardResult,
        (ae_transformer_internal hpC8 tBase rBase none 1 ⟨true⟩).2 = Except.ok fr ∧
        dictKeys fr.losses = ["extra", "latent_pred", "neg_q_entropy"] ∧
        ((hpC8.bottleneck_kind = "dense" ∨ hpC8.bottleneck_kind = "vae") →
          dictGet fr.losses "neg_q_entropy" = some 0) ∧
        (hpC8.mode = Mode.PREDICT → fr.losses = lossesInit) :=
  ⟨rfl, c8_losses_exactly_three_keys hpC8 tBase rBase none 1 ⟨true⟩ rfl⟩

/-- C8 counterexample: a forward pass with `do_ae` off returns no loss
dictionary at all — it fails with a `NameError` — so the claim that every
forward pass returns the three keys (with zeros when `do_ae` is off) is
false. -/
theorem c8_counterexample :
    (ae_transformer_internal hpC8off tBase rBase none 1 ⟨true⟩).2 =
      Except.error (PyErr.nameError "original_targets_shape") := by
  unfold ae_transformer_internal hpC8off hpBase
  simp

/-- C4: for every forward pass that returns (non-PREDICT mode, dense
bottleneck), the loss dictionary has `neg_q_entropy` equal to zero and
`latent_pred` computed as the mean squared difference between the decoded
compressed input and the compressed target scaled by 20 (lines 440-442),
further multiplied by the `latent_time` step gate that line 531 applies to
every bottleneck kind alike — never as a cross-entropy. -/
theorem c4_dense_bottleneck_losses (hp : HParams) (t : Tensors) (r : Rand)
    (cache : Option (List Nat)) (pm : ℚ) (st : ModuleState)
    (hae : hp.do_ae = true) (hmode : hp.mode ≠ Mode.PREDICT)
    (hkind : hp.bottleneck_kind = "dense") :
    ∃ fr : ForwardResult,
      (ae_transformer_internal hp t r cache pm st).2 = Except.ok fr ∧
      dictGet fr.losses "neg_q_entropy" = some 0 ∧
      dictGet fr.losses "latent_pred" =
        some (reduceMean (squaredDifference t.inputs_c t.targets_c) * 20 *
          latentTimeGate hp t.global_step) := by
  unfold ae_transformer_internal
  simp only [hae, if_true]
  exact ⟨_, rfl, finalLosses_neg_q_entropy_dense_vae hp t r (Or.inl hkind),
    finalLosses_latent_pred_dense hp t r hmode hkind⟩

/-- C4 witness: a concrete TRAIN-mode pass with the dense bottleneck. -/
theorem c4_witness :
    hpC4.do_ae = true ∧ hpC4.mode ≠ Mode.PREDICT ∧ hpC4.bottleneck_kind = "dense" ∧
      ∃ fr : ForwardResult,
        (ae_transformer_internal hpC4 tBase rBase none 1 ⟨true⟩).2 = Except.ok fr ∧
        dictGet fr.losses "neg_q_entropy" = some 0 ∧
        dictGet fr.losses "latent_pred" =
          some (reduceMean (squaredDifference tBase.inputs_c tBase.targets_c) * 20 *
            latentTimeGate hpC4 tBase.global_step) :=
  ⟨rfl, by decide, rfl,
    c4_dense_bottleneck_losses hpC4 tBase rBase none 1 ⟨true⟩ rfl (by decide) rfl⟩

theorem enumFrom_pow_sum (B : Nat) (l : List Nat) (n : Nat) :
    ((l.enumFrom (n + 1)).map (fun p => p.2 * B ^ p.1)).sum =
      ((l.enumFrom n).map (fun p => p.2 * B ^ p.1)).sum * B := by
  induction l generalizing n with
  | nil => simp
  | cons a l ih =>
    simp only [List.enumFrom_cons, List.map_cons, List.sum_cons]
    rw [ih (n + 1), pow_succ, add_mul]
    ring

theorem blockCompose_cons (B d : Nat) (ds : List Nat) :
    blockCompose B (d :: ds) = d + blockCompose B ds * B := by
  unfold blockCompose
  rw [List.enum_cons]
  simp only [List.map_cons, List.sum_cons, pow_zero, mul_one]
  have h := enumFrom_pow_sum B ds 0
  simp only [Nat.zero_add] at h
  rw [h, ← List.enum_eq_enumFrom]

/-- C3: the mixed-radix composition (line 268) and digit extraction
(lines 261-262) of the multi-block latent predictor form a bijection: for
every tuple of digits each below `block_vocab_size`, extracting digit `i`
from the composed value recovers the original digit. -/
theorem c3_mixed_radix_bijection (B : Nat) (ds : List Nat)
    (hlt : ∀ d ∈ ds, d < B) (i : Nat) (hi : i < ds.length) :
    blockDigit B (blockCompose B ds) i = ds.get ⟨i, hi⟩ := by
  induction ds generalizing i with
  | nil => simp at hi
  | cons d tl ih =>
    have hd : d < B := hlt d (List.mem_cons_self d tl)
    have hB : 0 < B := Nat.lt_of_le_of_lt (Nat.zero_le d) hd
    rw [blockCompose_cons]
    cases i with
    | zero =>
      unfold blockDigit
      simp only [pow_zero, Nat.div_one]
      rw [Nat.add_mul_mod_self_right, Nat.mod_eq_of_lt hd]
      rfl
    | succ j =>
      unfold blockDigit
      have h1 : (d + blockCompose B tl * B) / B ^ (j + 1) =
          blockCompose B tl / B ^ j := by
        rw [pow_succ', ← Nat.div_div_eq_div_mul]
        congr 1
        rw [Nat.add_mul_div_right _ _ hB, Nat.div_eq_of_lt hd, Nat.zero_add]
      rw [h1]
      exact ih (fun x hx => hlt x (List.mem_cons_of_mem d hx)) j
        (Nat.lt_of_succ_lt_succ hi)

/-- C3 witness: a concrete digit tuple with base 4 round-trips. -/
theorem c3_witness :
    (∀ d ∈ ([3, 0, 2] : List Nat), d < 4) ∧
      blockDigit 4 (blockCompose 4 [3, 0, 2]) 1 = 0 :=
  ⟨by decide, c3_mixed_radix_bijection 4 [3, 0, 2] (by decide) 1 (by decide)⟩

/-- C2: the latent sampler takes the beam-search path exactly when
`num_decode_blocks < 2` and the sampling temperature equals `0.0`
(line 305); every other configuration takes the iterative-refinement path;
in particular `num_decode_blocks = 1` with zero temperature returns the beam
result. -/
theorem c2_sampler_path_selection (hp : HParams) (latents_dense : List ℚ)
    (beamResult : List Nat) (initialPredict : List ℚ → List Nat)
    (predict : List Nat → List Nat) (iters : Nat) :
    (hp.num_decode_blocks < 2 → hp.sampling_temp = 0 →
      ae_latent_sample hp latents_dense beamResult initialPredict predict iters =
        beamResult) ∧
    (2 ≤ hp.num_decode_blocks ∨ hp.sampling_temp ≠ 0 →
      ae_latent_sample hp latents_dense beamResult initialPredict predict iters =
        iterate_sample predict (initialPredict latents_dense) iters) ∧
    (hp.num_decode_blocks = 1 → hp.sampling_temp = 0 →
      ae_latent_sample hp latents_dense beamResult initialPredict predict iters =
        beamResult) := by
  refine ⟨fun h1 h2 => ?_, fun h => ?_, fun h1 h2 => ?_⟩
  · unfold ae_latent_sample
    rw [if_pos ⟨h1, h2⟩]
  · unfold ae_latent_sample
    rw [if_neg]
    rintro ⟨hb, ht⟩
    rcases h with h | h
    · omega
    · exact h ht
  · unfold ae_latent_sample
    rw [if_pos ⟨by omega, h2⟩]

/-- C2 witness: the baseline configuration (one decode block, zero
temperature) returns the beam-search result. -/
theorem c2_witness :
    hpC2.num_decode_blocks = 1 ∧ hpC2.sampling_temp = 0 ∧
      ae_latent_sample hpC2 [0] [4, 5] (fun _ => [0]) (fun l => l) 3 = [4, 5] :=
  ⟨rfl, rfl,
    (c2_sampler_path_selection hpC2 [0] [4, 5] (fun _ => [0]) (fun l => l) 3).2.2 rfl rfl⟩

/-- C7: for every schedule step and every uniform draw, the schedule-derived
masking weight of lines 493-498 — the product of the two decay factors,
optionally reduced by the draw times `unmasked_percentage` when refinement
is off — is clamped into the interval `[0, 1]` (line 498).  The decay-factor
values are universally quantified, which covers every global step. -/
theorem c7_masking_weight_clamped (hp : HParams) (linDecay expDecay schedDraw : ℚ) :
    0 ≤ scheduleMasking hp linDecay expDecay schedDraw ∧
      scheduleMasking hp linDecay expDecay schedDraw ≤ 1 := by
  simp only [scheduleMasking]
  exact ⟨le_min (le_max_right _ _) zero_le_one, min_le_right _ _⟩

/-- C9 (amended): an invalid `reshape_method` is a fatal construction-time
error only for the DVQ bottleneck kinds (the check of lines 578-603 runs
inside the `bottleneck_kind in ["dvq", "gumbel-softmax-dvq"]` branch); for
those kinds, any method other than `"project"` or `"slice"` raises
`ValueError("Unknown reshape method")` before any forward computation. -/
theorem c9_reshape_error_dvq (hp : HParams)
    (hkind : hp.bottleneck_kind = "dvq" ∨ hp.bottleneck_kind = "gumbel-softmax-dvq")
    (h1 : hp.reshape_method ≠ "project") (h2 : hp.reshape_method ≠ "slice") :
    transformerAEInit hp = Except.error "Unknown reshape method" := by
  unfold transformerAEInit
  rw [if_pos hkind, if_neg h1, if_neg h2]

/-- C9 witness: a DVQ configuration with an unknown reshape method fails at
construction. -/
theorem c9_witness :
    (hpC9dvq.bottleneck_kind = "dvq" ∨ hpC9dvq.bottleneck_kind = "gumbel-softmax-dvq") ∧
      hpC9dvq.reshape_method ≠ "project" ∧ hpC9dvq.reshape_method ≠ "slice" ∧
      transformerAEInit hpC9dvq = Except.error "Unknown reshape method" :=
  ⟨Or.inl rfl, by decide, by decide,
    c9_reshape_error_dvq hpC9dvq (Or.inl rfl) (by decide) (by decide)⟩

/-- C9 counterexample: with the (default) `semhash` bottleneck, construction
succeeds even though `reshape_method` is not one of the enumerated values —
so an invalid reshape method is not universally a construction-time error,
refuting the claim as stated. -/
theorem c9_counterexample :
    transformerAEInit hpC9semhash = Except.ok () ∧
      hpC9semhash.reshape_method ≠ "slice" ∧ hpC9semhash.reshape_method ≠ "project" := by
  refine ⟨?_, by decide, by decide⟩
  unfold transformerAEInit hpC9semhash hpBase
  simp

theorem next_bit_length (predict : List Nat → List Nat)
    (hlen : ∀ l, (predict l).length = l.length) (l : List Nat) (i : Nat) :
    (next_bit predict l i).length = l.length := by
  simp only [next_bit, List.length_append, List.length_take, List.length_drop, hlen]
  omega

theorem next_bit_getElem_le (predict : List Nat → List Nat)
    (hlen : ∀ l, (predict l).length = l.length) (l : List Nat) (p i : Nat)
    (h : p ≤ i) : (next_bit predict l i)[p]? = l[p]? := by
  by_cases hp : p < l.length
  · unfold next_bit
    rw [List.getElem?_append_left (by simp only [List.length_take]; omega)]
    rw [List.getElem?_take_of_lt (by omega)]
  · have hlp : l.length ≤ p := Nat.le_of_not_lt hp
    rw [List.getElem?_eq_none hlp,
      List.getElem?_eq_none (by rw [next_bit_length predict hlen]; exact hlp)]

theorem next_bit_getElem_gt (predict : List Nat → List Nat)
    (hlen : ∀ l, (predict l).length = l.length) (l : List Nat) (p i : Nat)
    (h : i < p) : (next_bit predict l i)[p]? = (predict l)[p]? := by
  by_cases hp : p < l.length
  · have htl : (l.take (i + 1)).length = i + 1 := by
      simp only [List.length_take]
      omega
    unfold next_bit
    rw [List.getElem?_append_right (by rw [htl]; omega)]
    rw [htl, List.getElem?_drop]
    congr 1
    omega
  · have hlp : l.length ≤ p := Nat.le_of_not_lt hp
    rw [List.getElem?_eq_none (by rw [next_bit_length predict hlen]; exact hlp),
      List.getElem?_eq_none (by rw [hlen]; exact hlp)]

theorem iterate_sample_stable (predict : List Nat → List Nat)
    (hlen : ∀ l, (predict l).length = l.length) (init : List Nat) (p : Nat) :
    ∀ m, p < m →
      (iterate_sample predict init m)[p]? = (iterate_sample predict init (p + 1))[p]? := by
  intro m
  induction m with
  | zero => intro h; omega
  | succ n ih =>
    intro h
    rcases (by omega : p < n ∨ p = n) with h' | h'
    · have hstep : (iterate_sample predict init (n + 1))[p]? =
          (iterate_sample predict init n)[p]? := by
        show (next_bit predict (iterate_sample predict init n) n)[p]? = _
        exact next_bit_getElem_le predict hlen _ p n (Nat.le_of_lt h')
      rw [hstep]
      exact ih h'
    · subst h'
      rfl

/-- C6: in the iterative-refinement sampler, round `i` keeps positions
`0..i` from the previous round and overwrites exactly the positions strictly
after `i` with the model's current prediction (`next_bit`, lines 312-320);
hence once round `p` has completed, the value at position `p` is never
changed by any later round (the committed positions only grow). `predict`
is the external re-scoring of the whole sequence and preserves its length. -/
theorem c6_committed_positions (predict : List Nat → List Nat)
    (hlen : ∀ l, (predict l).length = l.length) :
    (∀ (l : List Nat) (p i : Nat), p ≤ i → (next_bit predict l i)[p]? = l[p]?) ∧
    (∀ (l : List Nat) (p i : Nat), i < p →
      (next_bit predict l i)[p]? = (predict l)[p]?) ∧
    (∀ (init : List Nat) (p m : Nat), p < m →
      (iterate_sample predict init m)[p]? = (iterate_sample predict init (p + 1))[p]?) :=
  ⟨fun l p i h => next_bit_getElem_le predict hlen l p i h,
   fun l p i h => next_bit_getElem_gt predict hlen l p i h,
   fun init p m h => iterate_sample_stable predict hlen init p m h⟩

/-- C6 witness: with a concrete length-preserving predictor, position 0 is
kept by round 1, and position 1 is unchanged between rounds 2 and 3. -/
theorem c6_witness :
    (next_bit (fun l => l.map (· + 1)) [5, 6, 7] 1)[0]? = ([5, 6, 7] : List Nat)[0]? ∧
      (iterate_sample (fun l => l.map (· + 1)) [0, 0, 0] 3)[1]? =
        (iterate_sample (fun l => l.map (· + 1)) [0, 0, 0] 2)[1]? := by
  have hlen : ∀ l : List Nat, (l.map (· + 1)).length = l.length :=
    fun l => List.length_map l _
  exact ⟨(c6_committed_positions _ hlen).1 [5, 6, 7] 0 1 (by omega),
    (c6_committed_positions _ hlen).2.2 [0, 0, 0] 1 3 (by omega)⟩

theorem blendTargets_mask_zero (us ts ds : List ℚ) (hus : ∀ u ∈ us, u ≤ 1)
    (h1 : us.length = ts.length) (h2 : ts.length = ds.length) :
    blendTargets (maskBits 1 us) ts ds = ds := by
  induction us generalizing ts ds with
  | nil =>
    cases ts with
    | nil =>
      cases ds with
      | nil => rfl
      | cons d ds => simp at h2
    | cons t ts => simp at h1
  | cons u us ih =>
    cases ts with
    | nil => simp at h1
    | cons t ts =>
      cases ds with
      | nil => simp at h2
      | cons dv ds =>
        have hu : ¬ ((1 : ℚ) < u) := not_lt.mpr (hus u (List.mem_cons_self u us))
        simp only [maskBits, List.map_cons, blendTargets, List.zip_cons_cons,
          List.zipWith_cons_cons]
        rw [if_neg hu]
        congr 1
        · ring
        · have htail := ih ts ds (fun x hx => hus x (List.mem_cons_of_mem u hx))
            (by simpa using h1) (by simpa using h2)
          simpa [maskBits, blendTargets] using htail

theorem blendTargets_mask_one (us ts ds : List ℚ) (hus : ∀ u ∈ us, 0 < u)
    (h1 : us.length = ts.length) (h2 : ts.length = ds.length) :
    blendTargets (maskBits 0 us) ts ds = ts := by
  induction us generalizing ts ds with
  | nil =>
    cases ts with
    | nil => rfl
    | cons t ts => simp at h1
  | cons u us ih =>
    cases ts with
    | nil => simp at h1
    | cons t ts =>
      cases ds with
      | nil => simp at h2
      | cons dv ds =>
        have hu : (0 : ℚ) < u := hus u (List.mem_cons_self u us)
        simp only [maskBits, List.map_cons, blendTargets, List.zip_cons_cons,
          List.zipWith_cons_cons]
        rw [if_pos hu]
        congr 1
        · ring
        · have htail := ih ts ds (fun x hx => hus x (List.mem_cons_of_mem u hx))
            (by simpa using h1) (by simpa using h2)
          simpa [maskBits, blendTargets] using htail

/-- C1 (amended): in PREDICT mode the masking weight is forced to the
externally supplied `predict_mask` (lines 501-502), and for every position
the blended target equals `mask·target + (1-mask)·d` with
`mask = to_float(masking < u)` (lines 503-508).  But the endpoint semantics
are the reverse of the claim: `predict_mask = 1.0` makes every mask bit `0`
(no draw in `[0,1)` exceeds `1`), so the decoder consumes the full
decompressed latent reconstruction, while `predict_mask = 0.0` makes every
mask bit `1` (for positive draws), so the decoder consumes the ground-truth
target. -/
theorem c1_predict_mask_semantics (hp : HParams) (pm linD expD sd : ℚ)
    (us ts ds : List ℚ) (hmask : hp.do_mask = true)
    (hmode : hp.mode = Mode.PREDICT) :
    maskingValue hp pm (scheduleMasking hp linD expD sd) = pm ∧
    maskingStep hp pm linD expD sd us ts ds = blendTargets (maskBits pm us) ts ds ∧
    (pm = 1 → (∀ u ∈ us, u ≤ 1) → us.length = ts.length → ts.length = ds.length →
      maskingStep hp pm linD expD sd us ts ds = ds) ∧
    (pm = 0 → (∀ u ∈ us, 0 < u) → us.length = ts.length → ts.length = ds.length →
      maskingStep hp pm linD expD sd us ts ds = ts) := by
  have hval : maskingValue hp pm (scheduleMasking hp linD expD sd) = pm := by
    unfold maskingValue
    simp [hmode]
  have hstep : maskingStep hp pm linD expD sd us ts ds =
      blendTargets (maskBits pm us) ts ds := by
    unfold maskingStep
    simp only [hmask, if_true, hval]
  refine ⟨hval, hstep, fun hpm hus hl1 hl2 => ?_, fun hpm hus hl1 hl2 => ?_⟩
  · rw [hstep, hpm]
    exact blendTargets_mask_zero us ts ds hus hl1 hl2
  · rw [hstep, hpm]
    exact blendTargets_mask_one us ts ds hus hl1 hl2

/-- C1 counterexample: in PREDICT mode with `predict_mask = 1.0` and the
per-position draw `1/2`, the blended target is the decompressed latent value
`7`, not the ground-truth target `3` — so `predict_mask = 1.0` does not mean
the decoder consumes the ground truth, refuting the claim's reading of the
endpoints. -/
theorem c1_counterexample :
    maskingStep hpC1 1 (1 / 2) (1 / 2) (1 / 2) [1 / 2] [3] [7] = [7] ∧
      ([7] : List ℚ) ≠ [3] := by
  constructor
  · unfold maskingStep maskingValue scheduleMasking maskBits blendTargets hpC1 hpBase
    norm_num
  · intro hc
    rw [List.cons.injEq] at hc
    norm_num at hc

/-- C1 witness: in PREDICT mode the masking weight equals the supplied
`predict_mask`, and with `predict_mask = 1` the blended output is the
reconstruction. -/
theorem c1_witness :
    hpC1.do_mask = true ∧ hpC1.mode = Mode.PREDICT ∧
      maskingValue hpC1 1 (scheduleMasking hpC1 (1 / 2) (1 / 2) (1 / 2)) = 1 ∧
      maskingStep hpC1 1 (1 / 2) (1 / 2) (1 / 2) [1 / 2] [3] [7] = [7] := by
  refine ⟨rfl, rfl, ?_, ?_⟩
  · exact (c1_predict_mask_semantics hpC1 1 (1 / 2) (1 / 2) (1 / 2) [1 / 2] [3] [7]
      rfl rfl).1
  · refine (c1_predict_mask_semantics hpC1 1 (1 / 2) (1 / 2) (1 / 2) [1 / 2] [3] [7]
      rfl rfl).2.2.1 rfl ?_ rfl rfl
    intro u hu
    rw [List.mem_singleton] at hu
    subst hu
    norm_num

end TransformerVAE
